import Mathlib

/-!
Verification of the core of `focstest.py`: the OCaml-REPL output
classifier (`parse_error`), the transcript segmenter (`run_ocaml_code`),
the text-normalization comparator (`run_test`), and the test-runner loop
of `main` (suite selection and per-case control flow).

Strings are modelled as `List Char`; Python string methods (`find`,
`rfind`, `strip`, `split`, `lower`) are given faithful ASCII models.
-/

namespace Focstest

/-- Python strings are modelled as lists of characters. -/
abbrev Str := List Char

/-- ASCII whitespace as recognized by Python `str.strip` and `str.split`. -/
def pyIsSpace (c : Char) : Bool :=
  c = ' ' || c = '\t' || c = '\n' || c = '\r' || c = '\x0b' || c = '\x0c'

/-- Python `str.strip`: drop leading and trailing whitespace. -/
def pyStrip (s : Str) : Str :=
  ((s.dropWhile pyIsSpace).reverse.dropWhile pyIsSpace).reverse

/-- ASCII lowering of one character, as Python `str.lower` does on ASCII. -/
def pyLowerChar (c : Char) : Char :=
  if 'A' ≤ c && c ≤ 'Z' then Char.ofNat (c.toNat + 32) else c

/-- Python `str.lower` (ASCII model). -/
def pyLower (s : Str) : Str := s.map pyLowerChar

/-- Python `s.find(sub)`: index of the leftmost occurrence of `sub` in `s`,
`none` standing for Python's `-1`. -/
def findIdx (sub : Str) : Str → Option Nat
  | [] => if sub.isEmpty then some 0 else none
  | c :: rest =>
    if sub.isPrefixOf (c :: rest) then some 0
    else (findIdx sub rest).map (· + 1)

/-- Python `sub in s` / `s.find(sub) != -1`. -/
def containsSub (sub s : Str) : Bool := (findIdx sub s).isSome

/-- Python `s.rfind(sub, 0, e)`: the greatest index `p` such that `sub`
occurs at `p` entirely within `s[0:e]` (so `p + sub.length ≤ e`),
`none` standing for Python's `-1`. -/
def rfindIn (sub s : Str) (e : Nat) : Option Nat :=
  ((List.range (s.length + 1)).filter
    (fun p => sub.isPrefixOf (s.drop p) && p + sub.length ≤ e)).getLast?

/-- Python `outs.split('# ')`: split on the literal two-character prompt
marker, non-overlapping, left to right, keeping empty pieces. -/
def split_on_prompt : Str → List Str
  | [] => [[]]
  | '#' :: ' ' :: rest => [] :: split_on_prompt rest
  | c :: rest =>
    match split_on_prompt rest with
    | [] => [[c]]
    | h :: t => (c :: h) :: t

/-- Python `text.split()` (no separator): the maximal runs of
non-whitespace characters, in order. -/
def pySplitWs : Str → List Str
  | [] => []
  | c :: rest =>
    if pyIsSpace c then pySplitWs rest
    else
      match rest with
      | [] => [[c]]
      | d :: _ =>
        if pyIsSpace d then [c] :: pySplitWs rest
        else
          match pySplitWs rest with
          | [] => [[c]]
          | w :: ws => (c :: w) :: ws

/-- Python `' '.join(words)`. -/
def joinWords : List Str → Str
  | [] => []
  | [w] => w
  | w :: ws => w ++ ' ' :: joinWords ws

/- The literal markers scanned for by `parse_error` in `focstest.py`. -/

def errorKw : Str := "Error:".toList

def exceptionKw : Str := "Exception:".toList

def charactersKw : Str := "Characters".toList

def fileKw : Str := "File".toList

/-- The body of `parse_error` once a keyword has been found at index `loc`:
`start = output.rfind('Characters', 0, loc)`, falling back to
`output.rfind('File', 0, loc)`, falling back to `loc` itself; the message
is the suffix of `output` from that start index. -/
def parse_error_at (output : Str) (loc : Nat) : Str :=
  match rfindIn charactersKw output loc with
  | some start => output.drop start
  | none =>
    match rfindIn fileKw output loc with
    | some start => output.drop start
    | none => output.drop loc

/-- `parse_error` from `focstest.py`: the loop
`for k in ('Error:', 'Exception:')` unrolled. If `'Error:'` occurs it is
handled (and the function returns) without ever looking at
`'Exception:'`; only when `'Error:'` is absent is `'Exception:'` tried;
if neither occurs the function falls through and returns `None`. -/
def parse_error (output : Str) : Option Str :=
  match findIdx errorKw output with
  | some loc => some (parse_error_at output loc)
  | none =>
    match findIdx exceptionKw output with
    | some loc => some (parse_error_at output loc)
    | none => none

/-- The classification of a segment, as named by the spec. -/
inductive Classification
  | Normal
  | ErrorText
  | ExceptionText
deriving DecidableEq, Repr

/-- Which keyword `parse_error`'s loop matches: `'Error:'` is tested
first; `'Exception:'` only if `'Error:'` is absent; `Normal` if neither
occurs (`parse_error` returns `None`). -/
def classify (output : Str) : Classification :=
  match findIdx errorKw output with
  | some _ => .ErrorText
  | none =>
    match findIdx exceptionKw output with
    | some _ => .ExceptionText
    | none => .Normal

/-- Modelled from claim C1's words: the marker with the earliest
position in the text wins, so if `'Exception:'` occurs at an earlier
position than `'Error:'` the classification is `ExceptionText`. -/
def classify_spec_earliest (output : Str) : Classification :=
  match findIdx errorKw output, findIdx exceptionKw output with
  | none, none => .Normal
  | some _, none => .ErrorText
  | none, some _ => .ExceptionText
  | some a, some b => if b < a then .ExceptionText else .ErrorText

/-- Modelled from claim C5's words: the message starts at whichever of
the two context markers occurs at the later (closer to the keyword)
position before the keyword, at the keyword itself if neither
precedes it. -/
def message_start_spec_nearest (output : Str) (loc : Nat) : Nat :=
  match rfindIn charactersKw output loc, rfindIn fileKw output loc with
  | some a, some b => max a b
  | some a, none => a
  | none, some b => b
  | none, none => loc

/-- The amended start rule actually implemented by `parse_error`: the
last occurrence of `'Characters'` before the keyword if there is one —
regardless of whether a `'File'` occurs even closer to the keyword —
else the last occurrence of `'File'` before the keyword, else the
keyword position itself. -/
def message_start_amended (output : Str) (loc : Nat) : Nat :=
  match rfindIn charactersKw output loc with
  | some a => a
  | none =>
    match rfindIn fileKw output loc with
    | some b => b
    | none => loc

/-- The position of the keyword `parse_error`'s loop matches:
`'Error:'` first, `'Exception:'` only if `'Error:'` is absent. -/
def first_keyword_loc (output : Str) : Option Nat :=
  match findIdx errorKw output with
  | some loc => some loc
  | none => findIdx exceptionKw output

/-- The Python exceptions that can escape `run_ocaml_code` and
`run_test`.  The two `ValueError` shapes are distinct messages of the
same Python class (`isValueError` below); `unimplementedExc` is the
`UnimplementedException` subclass of `OcamlError`; `indexError` is the
`IndexError` from `code.split()[0]` on a blank command. -/
inductive PyErr
  | valueErrorMalformed (code lastSegment : Str)
  | valueErrorIncomplete (code : Str)
  | unimplementedExc (err code : Str)
  | ocamlErr (err : Str)
  | indexError
  | unboundLocal
deriving DecidableEq, Repr

/-- Whether a `PyErr` is a Python `ValueError` (caught by the
`except ValueError` arm of `main`). -/
def PyErr.isValueError : PyErr → Bool
  | .valueErrorMalformed _ _ => true
  | .valueErrorIncomplete _ => true
  | _ => false

/-- The diagnostic phrase looked for to spot an incomplete expression. -/
def noMethodQuitKw : Str := "It has no method quit".toList

/-- The case-folded marker of an unimplemented stub. -/
def implementedKw : Str := "implemented".toList

/-- `run_ocaml_code` from `focstest.py`, with the raw stdout of the
subprocess as an explicit argument (the subprocess itself is I/O and
lives outside the model).  Splits stdout on the prompt marker, strips
each piece, checks the count against `1 + len(files) + 2`, raises on the
first segment that `parse_error` flags, and otherwise returns the
second-to-last segment. -/
def run_ocaml_code (stdout : Str) (code : Str) (files : List Str) :
    Except PyErr Str :=
  let matchesL := (split_on_prompt stdout).map pyStrip
  let expected := 1 + files.length + 2
  if matchesL.length ≠ expected then
    .error (.valueErrorMalformed code (matchesL.getLastD []))
  else
    match matchesL.findSome? parse_error with
    | some err =>
      if containsSub noMethodQuitKw err then
        .error (.valueErrorIncomplete code)
      else if containsSub implementedKw (pyLower err) then
        .error (.unimplementedExc err code)
      else
        .error (.ocamlErr err)
    | none => .ok (matchesL.getD (matchesL.length - 2) [])

/- The three text-normalization techniques of `focstest.py`. -/

def equivalent (text : Str) : Str := text

def strip_whitespace (text : Str) : Str := pyStrip text

def normalize_whitespace (text : Str) : Str := joinWords (pySplitWs text)

/-- The three normalization steps, tagged so that their Python
`__name__` strings can be reported. -/
inductive NormStep
  | equivalent
  | strip_whitespace
  | normalize_whitespace
deriving DecidableEq, Repr

/-- Apply a normalization step. -/
def NormStep.apply : NormStep → Str → Str
  | .equivalent, t => Focstest.equivalent t
  | .strip_whitespace, t => Focstest.strip_whitespace t
  | .normalize_whitespace, t => Focstest.normalize_whitespace t

/-- The Python `__name__` of a normalization step. -/
def NormStep.pyName : NormStep → String
  | .equivalent => "equivalent"
  | .strip_whitespace => "strip_whitespace"
  | .normalize_whitespace => "normalize_whitespace"

/-- The `steps` list of `run_test`. -/
def steps : List NormStep :=
  [.equivalent, .strip_whitespace, .normalize_whitespace]

/-- The `for step in steps` loop of `run_test`, which Python enters with
at least one step: compares `step(output) == step(expected_out)`,
breaks on the first success, and after the loop reports the last
computed `(result, method)` pair. -/
def compareLoop (output expected : Str) : NormStep → List NormStep → Bool × String
  | s, rest =>
    let r := s.apply output == s.apply expected
    if r then (true, s.pyName)
    else
      match rest with
      | [] => (false, s.pyName)
      | s2 :: rest2 => compareLoop output expected s2 rest2

/-- Modelled from claim C3's words: exact equality, then equality of the
whitespace-stripped sides, then equality of the whitespace-collapsed
sides, first success wins and names the strategy; on failure the
outcome is false with the last strategy name and the actual output. -/
def compare_spec (actual expected : Str) : Bool × String × Str :=
  if actual = expected then (true, "equivalent", actual)
  else if pyStrip actual = pyStrip expected then
    (true, "strip_whitespace", actual)
  else if normalize_whitespace actual = normalize_whitespace expected then
    (true, "normalize_whitespace", actual)
  else (false, "normalize_whitespace", actual)

/-- `run_test` from `focstest.py`, with the raw stdout of the subprocess
as an explicit argument.  The `Option` in the result models Python's
universe of return values checked by `main` (`if res is None`); every
return statement of `run_test` produces a tuple, i.e. `some`.
`code.split()[0]` raises `IndexError` when `code` is blank, inside the
first loop iteration, before any comparison. -/
def run_test (stdout : Str) (code : Str) (expected_out : Str) (file : Str) :
    Except PyErr (Option (Bool × Str × String)) :=
  match run_ocaml_code stdout code [file] with
  | .error e => .error e
  | .ok output =>
    match steps with
    | [] => .error .unboundLocal
    | s :: rest =>
      match pySplitWs code with
      | [] => .error .indexError
      | _ :: _ =>
        let rm := compareLoop output expected_out s rest
        .ok (some (rm.1, output, rm.2))

/-- A test case as consumed by the runner: the command and its expected
output. -/
abbrev TestCase := Str × Str

/-- The mutable state of `main`'s test loop: the two counters, whether
the locals `test_str` and `function` have been assigned yet (they are
assigned together, only after a test case completes normally), and the
list of `(suite index, 1-based case number)` pairs for which `run_test`
has been invoked. -/
structure LoopState where
  numFailed : Nat
  numSkipped : Nat
  hasPrior : Bool
  trace : List (Nat × Nat)
deriving DecidableEq, Repr

/-- How `main`'s loop can stop early: `sys.exit(code)`, or an uncaught
`UnboundLocalError` from reading `test_str`/`function` before
assignment, or any other uncaught Python exception. -/
inductive Halt
  | sysExit (code : Nat)
  | unboundLocal
  | uncaught (e : PyErr)
deriving DecidableEq, Repr

/-- The initial loop state of one invocation of `main`. -/
def initState : LoopState := ⟨0, 0, false, []⟩

/-- The inner `for k, (test, expected_output) in enumerate(suite)` loop
of `main`, for suite number `j` of length `n`, starting at offset `k`.
The oracle gives the outcome of `run_test` for a test case (pure, per
the spec's purity invariant).  Returns the state after the suite
together with `some halt` if the whole run stops inside this suite:
- `UnimplementedException`: under `--verbose` the handler first prints
  `test_str` (an `UnboundLocalError` if no case completed before), then
  adds `len(suite) - (k + 1)` to the skip counter, then prints a message
  mentioning `function` (again an `UnboundLocalError` if no case
  completed before), then breaks out to the next suite;
- `ValueError`: print and continue with the next case;
- other `OcamlError`: print and `sys.exit(1)`;
- a `None` result: print and continue with the next case;
- a tuple: assign `test_str`/`function`, bump the failure counter when
  the result is false, continue. -/
def runCases (verbose : Bool)
    (oracle : Str → Str → Except PyErr (Option (Bool × Str × String)))
    (j : Nat) (n : Nat) :
    Nat → List TestCase → LoopState → LoopState × Option Halt
  | _, [], st => (st, none)
  | k, (t, e) :: rest, st =>
    let st1 : LoopState := { st with trace := st.trace ++ [(j, k + 1)] }
    match oracle t e with
    | .error (.unimplementedExc _ _) =>
      if verbose && !st1.hasPrior then (st1, some .unboundLocal)
      else
        let st2 : LoopState :=
          { st1 with numSkipped := st1.numSkipped + (n - (k + 1)) }
        if !st2.hasPrior then (st2, some .unboundLocal)
        else (st2, none)
    | .error (.valueErrorMalformed _ _) => runCases verbose oracle j n (k + 1) rest st1
    | .error (.valueErrorIncomplete _) => runCases verbose oracle j n (k + 1) rest st1
    | .error (.ocamlErr _) => (st1, some (.sysExit 1))
    | .error err => (st1, some (.uncaught err))
    | .ok none => runCases verbose oracle j n (k + 1) rest st1
    | .ok (some (r, _, _)) =>
      let st2 : LoopState := { st1 with hasPrior := true }
      let st3 : LoopState :=
        if r then st2 else { st2 with numFailed := st2.numFailed + 1 }
      runCases verbose oracle j n (k + 1) rest st3

/-- The outer `for j, suite in test_suites` loop of `main`: run each
suite in list order, stopping the whole run as soon as a suite reports a
halt. -/
def runSuites (verbose : Bool)
    (oracle : Str → Str → Except PyErr (Option (Bool × Str × String))) :
    List (Nat × List TestCase) → LoopState → LoopState × Option Halt
  | [], st => (st, none)
  | (j, suite) :: rest, st =>
    match runCases verbose oracle j suite.length 0 suite st with
    | (st1, none) => runSuites verbose oracle rest st1
    | (st1, some h) => (st1, some h)

/-- The suite-selection block of `main`.  Python truthiness makes both
an absent flag and an empty `--use-suites`/`--skip-suites` list take the
run-all path, so each flag is modelled as a possibly empty list.
With `--use-suites`, the kept suites are `[test_suites[j-1] for j in
args.use_suites]` — in the order the user listed them — and every suite
whose index is not listed is counted skipped.  With `--skip-suites`, the
listed suites are counted skipped and the kept suites are the original
list filtered in place.  Returns the kept suites and the amount added to
`num_skipped`. -/
def selectSuites (use skip : List Nat)
    (ts : List (Nat × List TestCase)) : List (Nat × List TestCase) × Nat :=
  if use ≠ [] then
    (use.map (fun j => ts.getD (j - 1) (0, [])),
     ((ts.filter (fun p => !use.contains p.1)).map (fun p => p.2.length)).sum)
  else if skip ≠ [] then
    (ts.filter (fun p => !skip.contains p.1),
     (skip.map (fun j => (ts.getD (j - 1) (0, [])).2.length)).sum)
  else (ts, 0)

/-! ## Lemmas about the whitespace splitter -/

theorem pySplitWs_space (c : Char) (rest : Str) (hc : pyIsSpace c = true) :
    pySplitWs (c :: rest) = pySplitWs rest := by
  simp [pySplitWs, hc]

theorem pySplitWs_single (c : Char) (hc : pyIsSpace c = false) :
    pySplitWs [c] = [[c]] := by
  simp [pySplitWs, hc]

theorem pySplitWs_word_space (c d : Char) (rest : Str)
    (hc : pyIsSpace c = false) (hd : pyIsSpace d = true) :
    pySplitWs (c :: d :: rest) = [c] :: pySplitWs (d :: rest) := by
  simp [pySplitWs, hc, hd]

theorem pySplitWs_cons_cons (c d : Char) (rest : Str)
    (hc : pyIsSpace c = false) (hd : pyIsSpace d = false) :
    pySplitWs (c :: d :: rest) =
      match pySplitWs (d :: rest) with
      | [] => [[c]]
      | w :: ws => (c :: w) :: ws := by
  simp [pySplitWs, hc, hd]

theorem pySplitWs_word_cont (c d : Char) (rest : Str) (w : Str) (ws : List Str)
    (hc : pyIsSpace c = false) (hd : pyIsSpace d = false)
    (hres : pySplitWs (d :: rest) = w :: ws) :
    pySplitWs (c :: d :: rest) = (c :: w) :: ws := by
  rw [pySplitWs_cons_cons c d rest hc hd, hres]

theorem pySplitWs_head_ne_nil (c : Char) (rest : Str) (hc : pyIsSpace c = false) :
    pySplitWs (c :: rest) ≠ [] := by
  cases rest with
  | nil => simp [pySplitWs_single c hc]
  | cons d rest2 =>
    by_cases hd : pyIsSpace d = true
    · simp [pySplitWs_word_space c d rest2 hc hd]
    · have hd' : pyIsSpace d = false := by simpa using hd
      cases hres : pySplitWs (d :: rest2) with
      | nil => rw [pySplitWs_cons_cons c d rest2 hc hd', hres]; simp
      | cons w ws => simp [pySplitWs_word_cont c d rest2 w ws hc hd' hres]

theorem pySplitWs_sound (s : Str) :
    ∀ w ∈ pySplitWs s, w ≠ [] ∧ ∀ c ∈ w, pyIsSpace c = false := by
  induction s with
  | nil => intro w hw; simp [pySplitWs] at hw
  | cons c rest ih =>
    intro w hw
    by_cases hc : pyIsSpace c = true
    · rw [pySplitWs_space c rest hc] at hw
      exact ih w hw
    · have hc' : pyIsSpace c = false := by simpa using hc
      cases rest with
      | nil =>
        rw [pySplitWs_single c hc'] at hw
        rcases List.mem_singleton.mp hw with rfl
        refine ⟨by simp, ?_⟩
        intro x hx
        rcases List.mem_singleton.mp hx with rfl
        exact hc'
      | cons d rest2 =>
        by_cases hd : pyIsSpace d = true
        · rw [pySplitWs_word_space c d rest2 hc' hd] at hw
          rcases List.mem_cons.mp hw with rfl | hw2
          · refine ⟨by simp, ?_⟩
            intro x hx
            rcases List.mem_singleton.mp hx with rfl
            exact hc'
          · exact ih w hw2
        · have hd' : pyIsSpace d = false := by simpa using hd
          cases hres : pySplitWs (d :: rest2) with
          | nil => exact absurd hres (pySplitWs_head_ne_nil d rest2 hd')
          | cons w0 ws =>
            rw [pySplitWs_word_cont c d rest2 w0 ws hc' hd' hres] at hw
            rcases List.mem_cons.mp hw with rfl | hw2
            · have h0 := ih w0 (by rw [hres]; exact List.mem_cons_self w0 ws)
              refine ⟨by simp, ?_⟩
              intro x hx
              rcases List.mem_cons.mp hx with rfl | hx2
              · exact hc'
              · exact h0.2 x hx2
            · exact ih w (by rw [hres]; exact List.mem_cons_of_mem w0 hw2)

theorem pySplitWs_append_space (w s : Str) (hw : w ≠ [])
    (hall : ∀ c ∈ w, pyIsSpace c = false) :
    pySplitWs (w ++ ' ' :: s) = w :: pySplitWs s := by
  induction w with
  | nil => exact absurd rfl hw
  | cons c w' ih =>
    have hc : pyIsSpace c = false := hall c (List.mem_cons_self c w')
    cases w' with
    | nil =>
      have hsp : pyIsSpace ' ' = true := by decide
      calc pySplitWs ([c] ++ ' ' :: s)
          = [c] :: pySplitWs (' ' :: s) := pySplitWs_word_space c ' ' s hc hsp
        _ = [c] :: pySplitWs s := by rw [pySplitWs_space ' ' s hsp]
    | cons c2 w'' =>
      have hc2 : pyIsSpace c2 = false :=
        hall c2 (List.mem_cons_of_mem c (List.mem_cons_self c2 w''))
      have ih2 : pySplitWs (c2 :: w'' ++ ' ' :: s) = (c2 :: w'') :: pySplitWs s :=
        ih (by simp) (fun x hx => hall x (List.mem_cons_of_mem c hx))
      exact pySplitWs_word_cont c c2 (w'' ++ ' ' :: s) (c2 :: w'')
        (pySplitWs s) hc hc2 ih2

theorem pySplitWs_word (w : Str) (hw : w ≠ [])
    (hall : ∀ c ∈ w, pyIsSpace c = false) :
    pySplitWs w = [w] := by
  induction w with
  | nil => exact absurd rfl hw
  | cons c w' ih =>
    have hc : pyIsSpace c = false := hall c (List.mem_cons_self c w')
    cases w' with
    | nil => exact pySplitWs_single c hc
    | cons c2 w'' =>
      have hc2 : pyIsSpace c2 = false :=
        hall c2 (List.mem_cons_of_mem c (List.mem_cons_self c2 w''))
      have ih2 : pySplitWs (c2 :: w'') = [c2 :: w''] :=
        ih (by simp) (fun x hx => hall x (List.mem_cons_of_mem c hx))
      exact pySplitWs_word_cont c c2 w'' (c2 :: w'') [] hc hc2 ih2

theorem pySplitWs_joinWords (ws : List Str)
    (h : ∀ w ∈ ws, w ≠ [] ∧ ∀ c ∈ w, pyIsSpace c = false) :
    pySplitWs (joinWords ws) = ws := by
  induction ws with
  | nil => simp [joinWords, pySplitWs]
  | cons w ws' ih =>
    have hw := h w (List.mem_cons_self w ws')
    cases ws' with
    | nil => simpa [joinWords] using pySplitWs_word w hw.1 hw.2
    | cons w2 ws'' =>
      have hjoin : joinWords (w :: w2 :: ws'') = w ++ ' ' :: joinWords (w2 :: ws'') := rfl
      rw [hjoin, pySplitWs_append_space w (joinWords (w2 :: ws'')) hw.1 hw.2,
        ih (fun x hx => h x (List.mem_cons_of_mem w hx))]

theorem pySplitWs_ne_nil (s : Str) (h : ∃ c ∈ s, pyIsSpace c = false) :
    pySplitWs s ≠ [] := by
  induction s with
  | nil => simp at h
  | cons c rest ih =>
    by_cases hc : pyIsSpace c = true
    · rw [pySplitWs_space c rest hc]
      refine ih ?_
      rcases h with ⟨x, hx, hxf⟩
      rcases List.mem_cons.mp hx with rfl | hx2
      · rw [hc] at hxf; cases hxf
      · exact ⟨x, hx2, hxf⟩
    · exact pySplitWs_head_ne_nil c rest (by simpa using hc)

/-- `parse_error_at` starts the message exactly where the amended rule of
claim C5 says: at the last `Characters` before the keyword when there is
one, else at the last `File` before the keyword, else at the keyword. -/
theorem parse_error_at_eq_amended (output : Str) (loc : Nat) :
    parse_error_at output loc = output.drop (message_start_amended output loc) := by
  unfold parse_error_at message_start_amended
  cases hC : rfindIn charactersKw output loc with
  | some a => simp
  | none =>
    cases hF : rfindIn fileKw output loc with
    | some b => simp
    | none => simp

/-! ## Claim theorems -/

/-- C9: whitespace normalization is idempotent — for every string `s`,
`normalize_whitespace (normalize_whitespace s) = normalize_whitespace s`. -/
theorem c9_normalize_whitespace_idempotent (s : Str) :
    normalize_whitespace (normalize_whitespace s) = normalize_whitespace s := by
  unfold normalize_whitespace
  rw [pySplitWs_joinWords (pySplitWs s) (pySplitWs_sound s)]

/-- C1 counterexample: in the segment `Exception: A\nError: B` the marker
`Exception:` occurs at position 0, strictly before `Error:` at position
13, yet the classifier tests `Error:` first and yields `ErrorText` — not
`ExceptionText` as the claim's earliest-position rule predicts — and the
extracted message is the `Error:` suffix. -/
theorem c1_counterexample :
    findIdx exceptionKw "Exception: A\nError: B".toList = some 0 ∧
    findIdx errorKw "Exception: A\nError: B".toList = some 13 ∧
    classify "Exception: A\nError: B".toList = Classification.ErrorText ∧
    classify_spec_earliest "Exception: A\nError: B".toList =
      Classification.ExceptionText ∧
    parse_error "Exception: A\nError: B".toList = some "Error: B".toList := by
  decide

/-- C1 (amended): the classifier tests the markers in the fixed order
`Error:` then `Exception:`, each anywhere in the segment, position
notwithstanding: if `Error:` occurs at all the classification is
`ErrorText`; else if `Exception:` occurs it is `ExceptionText`; if
neither marker occurs the classification is `Normal` and `parse_error`
returns none. -/
theorem c1_amended_search_order (output : Str) :
    (containsSub errorKw output = true →
      classify output = Classification.ErrorText ∧
      ∃ m, parse_error output = some m) ∧
    (containsSub errorKw output = false → containsSub exceptionKw output = true →
      classify output = Classification.ExceptionText ∧
      ∃ m, parse_error output = some m) ∧
    (containsSub errorKw output = false → containsSub exceptionKw output = false →
      classify output = Classification.Normal ∧ parse_error output = none) := by
  unfold containsSub classify parse_error
  cases hE : findIdx errorKw output with
  | some loc => simp [hE]
  | none =>
    cases hX : findIdx exceptionKw output with
    | some loc => simp [hX]
    | none => simp

/-- C1 amended witness: the three branches at concrete segments. -/
theorem c1_amended_search_order_witness :
    (classify "ok Error: x".toList = Classification.ErrorText ∧
      ∃ m, parse_error "ok Error: x".toList = some m) ∧
    (classify "Exception: x".toList = Classification.ExceptionText ∧
      ∃ m, parse_error "Exception: x".toList = some m) ∧
    (classify "- : int = 1".toList = Classification.Normal ∧
      parse_error "- : int = 1".toList = none) :=
  ⟨(c1_amended_search_order "ok Error: x".toList).1 (by decide),
   (c1_amended_search_order "Exception: x".toList).2.1 (by decide) (by decide),
   (c1_amended_search_order "- : int = 1".toList).2.2 (by decide) (by decide)⟩

/-- C5 counterexample: in `Characters File Error: x` the context marker
nearest before the keyword is `File` at position 11 (the claim therefore
predicts the message starts there), but `parse_error` prefers
`Characters` unconditionally and the message starts at position 0. -/
theorem c5_counterexample :
    findIdx errorKw "Characters File Error: x".toList = some 16 ∧
    rfindIn charactersKw "Characters File Error: x".toList 16 = some 0 ∧
    rfindIn fileKw "Characters File Error: x".toList 16 = some 11 ∧
    message_start_spec_nearest "Characters File Error: x".toList 16 = 11 ∧
    parse_error "Characters File Error: x".toList =
      some "Characters File Error: x".toList ∧
    "Characters File Error: x".toList ≠
      ("Characters File Error: x".toList).drop 11 := by
  decide

/-- C5 (amended): when a keyword is matched at position `loc`, the
extracted message begins at the last occurrence of `Characters` before
the keyword if there is one — even when a `File` occurs closer to the
keyword — else at the last occurrence of `File` before the keyword, else
at the keyword itself. -/
theorem c5_amended_characters_precedence (output : Str) (loc : Nat)
    (h : first_keyword_loc output = some loc) :
    parse_error output = some (output.drop (message_start_amended output loc)) := by
  unfold first_keyword_loc at h
  unfold parse_error
  cases hE : findIdx errorKw output with
  | some l =>
    rw [hE] at h
    cases h
    simp [parse_error_at_eq_amended]
  | none =>
    rw [hE] at h
    cases hX : findIdx exceptionKw output with
    | some l =>
      rw [hX] at h
      cases h
      simp [parse_error_at_eq_amended]
    | none => rw [hX] at h; cases h

/-- C5 amended witness: in `File Error: x` the keyword is at position 5
and the message extends left to the `File` marker at position 0. -/
theorem c5_amended_characters_precedence_witness :
    parse_error "File Error: x".toList =
      some (("File Error: x".toList).drop
        (message_start_amended "File Error: x".toList 5)) :=
  c5_amended_characters_precedence "File Error: x".toList 5 (by decide)

/-- C3: the comparator applies exactly the three strategies in the fixed
order `equivalent`, `strip_whitespace`, `normalize_whitespace`, stops at
the first that succeeds reporting its name with a true result, and when
none succeeds reports false, the name of the last strategy tried, and
the actual output — i.e. `run_test`'s comparison loop agrees with the
spec's cascade `compare_spec` on every pair of strings. -/
theorem c3_comparator_cascade (actual expected : Str) :
    ((compareLoop actual expected NormStep.equivalent
        [NormStep.strip_whitespace, NormStep.normalize_whitespace]).1,
     (compareLoop actual expected NormStep.equivalent
        [NormStep.strip_whitespace, NormStep.normalize_whitespace]).2,
     actual) = compare_spec actual expected := by
  unfold compare_spec
  by_cases h1 : actual = expected
  · simp [compareLoop, NormStep.apply, equivalent, NormStep.pyName, h1]
  · by_cases h2 : pyStrip actual = pyStrip expected
    · simp [compareLoop, NormStep.apply, equivalent, strip_whitespace,
        NormStep.pyName, h1, h2]
    · by_cases h3 : normalize_whitespace actual = normalize_whitespace expected
      · simp [compareLoop, NormStep.apply, equivalent, strip_whitespace,
          NormStep.pyName, h1, h2, h3]
      · simp [compareLoop, NormStep.apply, equivalent, strip_whitespace,
          NormStep.pyName, h1, h2, h3]

/-- C2: the segmenter splits stdout on the prompt marker and strips each
segment; on a segment count different from `1 + len(files) + 2` it
raises the malformed-transcript `ValueError` carrying the offending
command and never returns a result; on a matching count with no error
classification it returns the second-to-last segment (a valid index). -/
theorem c2_segmenter_count_contract (stdout code : Str) (files : List Str) :
    (((split_on_prompt stdout).map pyStrip).length ≠ 1 + files.length + 2 →
      run_ocaml_code stdout code files =
        .error (.valueErrorMalformed code
          (((split_on_prompt stdout).map pyStrip).getLastD [])) ∧
      ∀ r, run_ocaml_code stdout code files ≠ .ok r) ∧
    (((split_on_prompt stdout).map pyStrip).length = 1 + files.length + 2 →
      ((split_on_prompt stdout).map pyStrip).findSome? parse_error = none →
      run_ocaml_code stdout code files =
        .ok (((split_on_prompt stdout).map pyStrip).getD
          (((split_on_prompt stdout).map pyStrip).length - 2) []) ∧
      ((split_on_prompt stdout).map pyStrip).length - 2 <
        ((split_on_prompt stdout).map pyStrip).length) := by
  constructor
  · intro h
    have h' : (split_on_prompt stdout).length ≠ 1 + files.length + 2 := by
      simpa using h
    constructor
    · unfold run_ocaml_code
      simp [h']
    · intro r
      unfold run_ocaml_code
      simp [h']
  · intro hlen hnone
    have hlen' : (split_on_prompt stdout).length = 1 + files.length + 2 := by
      simpa using hlen
    constructor
    · unfold run_ocaml_code
      simp [hlen', hnone]
    · omega

/-- C2 witness: a two-segment transcript with no preload file is
malformed (expected three segments); a three-segment clean transcript
yields the second-to-last segment. -/
theorem c2_segmenter_count_contract_witness :
    (run_ocaml_code "v# ".toList "1;;".toList [] =
      .error (.valueErrorMalformed "1;;".toList
        (((split_on_prompt "v# ".toList).map pyStrip).getLastD [])) ∧
      ∀ r, run_ocaml_code "v# ".toList "1;;".toList [] ≠ .ok r) ∧
    (run_ocaml_code "v# - : int = 1# ".toList "1;;".toList [] =
      .ok (((split_on_prompt "v# - : int = 1# ".toList).map pyStrip).getD
        (((split_on_prompt "v# - : int = 1# ".toList).map pyStrip).length - 2) []) ∧
      ((split_on_prompt "v# - : int = 1# ".toList).map pyStrip).length - 2 <
        ((split_on_prompt "v# - : int = 1# ".toList).map pyStrip).length) :=
  ⟨(c2_segmenter_count_contract "v# ".toList "1;;".toList []).1 (by decide),
   (c2_segmenter_count_contract "v# - : int = 1# ".toList "1;;".toList []).2
     (by decide) (by decide)⟩

/-- C4: once a segment's error message has been extracted, the secondary
classification follows the precedence: the no-terminating-command phrase
`It has no method quit` gives the incomplete-expression `ValueError`
even if the message also mentions `implemented`; else a case-insensitive
`implemented` gives `UnimplementedException`; else the plain
`OcamlError` is raised with the message. -/
theorem c4_secondary_classification (stdout code : Str) (files : List Str)
    (err : Str)
    (hlen : ((split_on_prompt stdout).map pyStrip).length = 1 + files.length + 2)
    (hfind : ((split_on_prompt stdout).map pyStrip).findSome? parse_error =
      some err) :
    (containsSub noMethodQuitKw err = true →
      run_ocaml_code stdout code files = .error (.valueErrorIncomplete code)) ∧
    (containsSub noMethodQuitKw err = false →
      containsSub implementedKw (pyLower err) = true →
      run_ocaml_code stdout code files = .error (.unimplementedExc err code)) ∧
    (containsSub noMethodQuitKw err = false →
      containsSub implementedKw (pyLower err) = false →
      run_ocaml_code stdout code files = .error (.ocamlErr err)) := by
  have hlen' : (split_on_prompt stdout).length = 1 + files.length + 2 := by
    simpa using hlen
  unfold run_ocaml_code
  refine ⟨?_, ?_, ?_⟩
  · intro h
    simp [hlen', hfind, h]
  · intro h h2
    simp [hlen', hfind, h, h2]
  · intro h h2
    simp [hlen', hfind, h, h2]

/-- C4 witness: a message holding both the no-method-quit phrase and
`implemented` is still classified incomplete; a `Not Implemented`
failure is classified unimplemented; an unbound-value error is a plain
`OcamlError`. -/
theorem c4_secondary_classification_witness :
    (run_ocaml_code "v# Error: It has no method quit not implemented# ".toList
      "q".toList [] = .error (.valueErrorIncomplete "q".toList)) ∧
    (run_ocaml_code "v# Exception: Failure Not Implemented# ".toList
      "q".toList [] =
      .error (.unimplementedExc "Exception: Failure Not Implemented".toList
        "q".toList)) ∧
    (run_ocaml_code "v# Error: Unbound value foo# ".toList "q".toList [] =
      .error (.ocamlErr "Error: Unbound value foo".toList)) :=
  ⟨(c4_secondary_classification
      "v# Error: It has no method quit not implemented# ".toList "q".toList []
      "Error: It has no method quit not implemented".toList
      (by decide) (by decide)).1 (by decide),
   (c4_secondary_classification
      "v# Exception: Failure Not Implemented# ".toList "q".toList []
      "Exception: Failure Not Implemented".toList
      (by decide) (by decide)).2.1 (by decide) (by decide),
   (c4_secondary_classification
      "v# Error: Unbound value foo# ".toList "q".toList []
      "Error: Unbound value foo".toList
      (by decide) (by decide)).2.2 (by decide) (by decide)⟩

/-- C6 divergence, evaluated: when the very first test case executed in
the run raises `UnimplementedException` (here suite 1 has two cases and
suite 2 one), the handler reads the local `function` before any
assignment to it, so the run crashes with an `UnboundLocalError` instead
of moving on to suite 2: the trace stops at case (1,1), though the skip
counter was already bumped by the one remaining case of suite 1. -/
theorem c6_first_case_unimplemented_crashes :
    runSuites false
      (fun _ _ => Except.error (PyErr.unimplementedExc
        "Exception: Failure Not Implemented".toList "f 1;;".toList))
      [(1, [("f 1;;".toList, "- : int = 1".toList),
            ("f 2;;".toList, "- : int = 2".toList)]),
       (2, [("g 1;;".toList, "- : int = 1".toList)])]
      initState =
    ((⟨0, 1, false, [(1, 1)]⟩ : LoopState), some Halt.unboundLocal) := by
  rfl

/-- C7: a test case whose outcome is a plain `OcamlError` (the message
contains neither the incomplete-expression phrase nor `implemented`)
makes the runner call `sys.exit(1)` at once: the suite loop stops right
after that case, whatever its position, and a halted suite stops the
whole run, so no further test case in any suite is executed. -/
theorem c7_interpreter_fault_aborts_run
    (verbose : Bool)
    (oracle : Str → Str → Except PyErr (Option (Bool × Str × String)))
    (j n k : Nat) (t e msg : Str) (rest : List TestCase) (st : LoopState)
    (suite : List TestCase) (moreSuites : List (Nat × List TestCase))
    (h : oracle t e = .error (.ocamlErr msg)) :
    runCases verbose oracle j n k ((t, e) :: rest) st =
      ({ st with trace := st.trace ++ [(j, k + 1)] }, some (Halt.sysExit 1)) ∧
    (∀ st2 st3 hl,
      runCases verbose oracle j suite.length 0 suite st2 = (st3, some hl) →
      runSuites verbose oracle ((j, suite) :: moreSuites) st2 = (st3, some hl)) := by
  constructor
  · unfold runCases
    rw [h]
  · intro st2 st3 hl hrc
    unfold runSuites
    rw [hrc]

/-- An oracle used to exercise the abort path: `g 1;;` hits an
unbound-value `OcamlError`, everything else passes. -/
def oracleUnboundG : Str → Str → Except PyErr (Option (Bool × Str × String)) :=
  fun t _ =>
    if t = "g 1;;".toList
    then .error (.ocamlErr "Error: Unbound value g".toList)
    else .ok (some (true, "- : int = 1".toList, "equivalent"))

/-- C7 witness: with `g 1;;` failing on an unbound value, the case loop
stops at that case with exit status 1, and a run whose first suite halts
never reaches the second suite. -/
theorem c7_interpreter_fault_aborts_run_witness :
    runCases false oracleUnboundG 1 2 1 [("g 1;;".toList, "- : int = 1".toList)]
      (⟨0, 0, true, [(1, 1)]⟩ : LoopState) =
      ((⟨0, 0, true, [(1, 1), (1, 2)]⟩ : LoopState), some (Halt.sysExit 1)) ∧
    runSuites false oracleUnboundG
      [(1, [("g 1;;".toList, "x".toList)]), (2, [("h;;".toList, "y".toList)])]
      initState =
      ((⟨0, 0, false, [(1, 1)]⟩ : LoopState), some (Halt.sysExit 1)) :=
  ⟨(c7_interpreter_fault_aborts_run false oracleUnboundG 1 2 1
      "g 1;;".toList "- : int = 1".toList "Error: Unbound value g".toList []
      (⟨0, 0, true, [(1, 1)]⟩ : LoopState) [] [] rfl).1,
   (c7_interpreter_fault_aborts_run false oracleUnboundG 1 0 0
      "g 1;;".toList "x".toList "Error: Unbound value g".toList []
      initState [("g 1;;".toList, "x".toList)]
      [(2, [("h;;".toList, "y".toList)])] rfl).2
     initState (⟨0, 0, false, [(1, 1)]⟩ : LoopState) (Halt.sysExit 1) (by decide)⟩

/-- C8 counterexample: with three suites and `--use-suites 3 1`, the kept
suites come out in the user's order `[3, 1]`, which is not ascending by
original index as the claim asserts for every ordering of the
user-supplied numbers. -/
theorem c8_use_suites_order_counterexample :
    ((selectSuites [3, 1] []
      [(1, [("a;;".toList, "1".toList)]),
       (2, [("b;;".toList, "2".toList)]),
       (3, [("c;;".toList, "3".toList)])]).1).map Prod.fst = [3, 1] ∧
    ¬ List.Sorted (· ≤ ·) [3, 1] := by
  decide

/-- C8 (amended): suite selection is applied once, before iteration.
With no selection flags the suite list is untouched; `--skip-suites`
filters in place, so the kept suites are a sublist of the original list
and stay ascending whenever the original indices were ascending; with
`--use-suites` the kept suites are exactly the user's list in the order
the user gave it (`test_suites[j-1]` for each listed `j`), ascending only
when that listing is. -/
theorem c8_suite_selection_amended (ts : List (Nat × List TestCase))
    (use skip : List Nat) :
    selectSuites [] [] ts = (ts, 0) ∧
    (skip ≠ [] → ((selectSuites [] skip ts).1).Sublist ts) ∧
    (skip ≠ [] → (ts.map Prod.fst).Sorted (· ≤ ·) →
      (((selectSuites [] skip ts).1).map Prod.fst).Sorted (· ≤ ·)) ∧
    (use ≠ [] → (selectSuites use skip ts).1 =
      use.map (fun j => ts.getD (j - 1) (0, []))) := by
  refine ⟨by simp [selectSuites], ?_, ?_, ?_⟩
  · intro h
    simp only [selectSuites, if_neg (by simp : ¬ ([] : List Nat) ≠ []), if_pos h]
    exact List.filter_sublist ts
  · intro h hsorted
    have hsub : ((selectSuites [] skip ts).1).Sublist ts := by
      simp only [selectSuites, if_neg (by simp : ¬ ([] : List Nat) ≠ []), if_pos h]
      exact List.filter_sublist ts
    exact List.Pairwise.sublist (List.Sublist.map Prod.fst hsub) hsorted
  · intro h
    simp [selectSuites, h]

/-- C8 amended witness: the three parts of the amended claim at a
concrete three-suite list, with `--skip-suites 2` and `--use-suites 3 1`. -/
theorem c8_suite_selection_amended_witness :
    selectSuites [] []
      [(1, [("a;;".toList, "1".toList)]), (2, [("b;;".toList, "2".toList)]),
       (3, [("c;;".toList, "3".toList)])] =
      ([(1, [("a;;".toList, "1".toList)]), (2, [("b;;".toList, "2".toList)]),
        (3, [("c;;".toList, "3".toList)])], 0) ∧
    ((selectSuites [] [2]
      [(1, [("a;;".toList, "1".toList)]), (2, [("b;;".toList, "2".toList)]),
       (3, [("c;;".toList, "3".toList)])]).1).Sublist
      [(1, [("a;;".toList, "1".toList)]), (2, [("b;;".toList, "2".toList)]),
       (3, [("c;;".toList, "3".toList)])] ∧
    (selectSuites [3, 1] []
      [(1, [("a;;".toList, "1".toList)]), (2, [("b;;".toList, "2".toList)]),
       (3, [("c;;".toList, "3".toList)])]).1 =
      [3, 1].map (fun j =>
        ([(1, [("a;;".toList, "1".toList)]), (2, [("b;;".toList, "2".toList)]),
          (3, [("c;;".toList, "3".toList)])]).getD (j - 1) (0, [])) :=
  ⟨(c8_suite_selection_amended
      [(1, [("a;;".toList, "1".toList)]), (2, [("b;;".toList, "2".toList)]),
       (3, [("c;;".toList, "3".toList)])] [3, 1] [2]).1,
   (c8_suite_selection_amended
      [(1, [("a;;".toList, "1".toList)]), (2, [("b;;".toList, "2".toList)]),
       (3, [("c;;".toList, "3".toList)])] [3, 1] [2]).2.1 (by decide),
   (c8_suite_selection_amended
      [(1, [("a;;".toList, "1".toList)]), (2, [("b;;".toList, "2".toList)]),
       (3, [("c;;".toList, "3".toList)])] [3, 1] [2]).2.2.2 (by decide)⟩

/-- C10 counterexample: on a four-segment transcript `run_ocaml_code`
returns normally, but for the blank command `' '` the expression
`code.split()[0]` raises `IndexError` inside `run_test`, so `run_test`
does not return a 3-tuple for every command on which `run_ocaml_code`
returns normally. -/
theorem c10_blank_command_counterexample :
    run_ocaml_code "v# f# x# ".toList " ".toList ["hw1.ml".toList] =
      .ok "x".toList ∧
    run_test "v# f# x# ".toList " ".toList "x".toList "hw1.ml".toList =
      .error PyErr.indexError :=
  ⟨rfl, rfl⟩

/-- C10 (amended): for every command holding at least one non-whitespace
character and every transcript on which `run_ocaml_code` returns
normally, `run_test` returns a 3-tuple of result, actual output and
strategy name — in particular it never returns `None`, so `main`'s
branch that skips a test on a `None` result is unreachable. -/
theorem c10_run_test_returns_triple (stdout code expected_out file out : Str)
    (hok : run_ocaml_code stdout code [file] = .ok out)
    (hcode : ∃ c ∈ code, pyIsSpace c = false) :
    ∃ r m, run_test stdout code expected_out file = .ok (some (r, out, m)) := by
  refine ⟨(compareLoop out expected_out NormStep.equivalent
      [NormStep.strip_whitespace, NormStep.normalize_whitespace]).1,
    (compareLoop out expected_out NormStep.equivalent
      [NormStep.strip_whitespace, NormStep.normalize_whitespace]).2, ?_⟩
  unfold run_test
  rw [hok]
  cases hs : pySplitWs code with
  | nil => exact absurd hs (pySplitWs_ne_nil code hcode)
  | cons w ws => simp [steps, hs]

/-- C10 amended witness: a non-blank command on a clean four-segment
transcript gives a tuple back. -/
theorem c10_run_test_returns_triple_witness :
    ∃ r m, run_test "v# f# x# ".toList "1;;".toList "x".toList
      "hw1.ml".toList = .ok (some (r, "x".toList, m)) :=
  c10_run_test_returns_triple "v# f# x# ".toList "1;;".toList "x".toList
    "hw1.ml".toList "x".toList rfl (by decide)

end Focstest
